import Mathlib

/-!
Verification development for the Polymarket trading engine of this repository
(`src/app/api/trade/limit/route.js`, `src/app/api/trade/utils.js`, and the
trading module in `src/unnamed/part_000`).

Modelling conventions (shallow embedding):
* A JavaScript number is modelled by `JN := Option ℚ`: `some q` is a finite
  number with exact rational value `q`, `none` stands for a non-finite value
  (`NaN`, `Infinity`, `-Infinity`) or for `Number(x)` of a missing field.
  All the code under study guards every arithmetic step with
  `Number.isFinite` and treats all non-finite values uniformly, so collapsing
  them into `none` is faithful.  Binary floating point rounding is not
  modelled: arithmetic is exact rational arithmetic.
* `Math.min` / `Math.max` become `jsMin` / `jsMax`; `String.prototype.trim`,
  `toUpperCase`, `toLowerCase` become `jsTrim`, `jsToUpper`, `jsToLower`
  (character-list implementations, which agree with the JavaScript
  operations on the ASCII data handled here).
* Asynchronous calls into the exchange SDK (`ctx.client.*`) are modelled as
  oracle parameters: an `Except String α` value is the outcome of one awaited
  call (`Except.error m` = the promise rejected, with formatted message `m`).
* The wall-clock bound of the polling loop (`Date.now() - started <= maxWaitMs`)
  is modelled by the length of the list of per-iteration observations
  (`List PollIter`): the loop body runs once per list element, and the loop
  is exhausted (timeout) when the list ends.
-/

/-- A JavaScript number: `some q` = finite value `q`, `none` = non-finite
(`NaN` / `±Infinity`, including `Number(undefined)`). -/
abbrev JN := Option ℚ

/-- `Math.min` on finite numbers. -/
def jsMin (a b : ℚ) : ℚ := if a ≤ b then a else b

/-- `Math.max` on finite numbers. -/
def jsMax (a b : ℚ) : ℚ := if a ≤ b then b else a

/-- `String.prototype.trim`, modelled on the character list. -/
def jsTrim (s : String) : String :=
  String.mk (((s.toList.dropWhile Char.isWhitespace).reverse.dropWhile
    Char.isWhitespace).reverse)

/-- `String.prototype.toUpperCase`, modelled on the character list. -/
def jsToUpper (s : String) : String := String.mk (s.toList.map Char.toUpper)

/-- `String.prototype.toLowerCase`, modelled on the character list. -/
def jsToLower (s : String) : String := String.mk (s.toList.map Char.toLower)

/-- `NUMERIC_EPSILON = 1e-9` from `src/app/api/trade/utils.js`. -/
def numericEpsilon : ℚ := 1 / 1000000000

/-- `MIN_ORDER_NOTIONAL_USD = 1` from `src/app/api/trade/limit/route.js`. -/
def MIN_ORDER_NOTIONAL_USD : ℚ := 1

/-- `MIN_ORDER_SHARES = 5` from `src/app/api/trade/limit/route.js`. -/
def MIN_ORDER_SHARES : ℚ := 5

/-- `MIN_TRADABLE_PRICE = 0.01` from `src/app/api/trade/limit/route.js`. -/
def MIN_TRADABLE_PRICE : ℚ := 1 / 100

/-- `MAX_TRADABLE_PRICE = 0.99` from `src/app/api/trade/limit/route.js`. -/
def MAX_TRADABLE_PRICE : ℚ := 99 / 100

/-- `isBelowMin(value, min, epsilon = NUMERIC_EPSILON)` from
`src/app/api/trade/utils.js`: coerce both arguments to numbers; any
non-finite argument counts as below the minimum; otherwise compare
`value + epsilon < min`.  The `epsilon` parameter always takes its default
`NUMERIC_EPSILON` in this repository, so it is inlined here. -/
def isBelowMin (value minValue : JN) : Bool :=
  match value, minValue with
  | some v, some m => decide (v + numericEpsilon < m)
  | _, _ => true

/-- `floorTo(value, decimals = 2)` from `src/app/api/trade/limit/route.js`:
non-finite values are returned unchanged; otherwise
`Math.floor((n + 1e-9) * 10 ** decimals) / 10 ** decimals`.
`Math.floor` rounds toward negative infinity, which is `Int.floor`. -/
def floorTo (value : JN) (decimals : ℕ) : JN :=
  value.map (fun n => ((⌊(n + numericEpsilon) * 10 ^ decimals⌋ : ℤ) : ℚ) / 10 ^ decimals)

/-- `minSellSharesAtPrice(price)` from `src/app/api/trade/limit/route.js`:
`MIN_ORDER_SHARES` for a non-finite or non-positive price, otherwise
`max(MIN_ORDER_SHARES, MIN_ORDER_NOTIONAL_USD / price)`. -/
def minSellSharesAtPrice (price : JN) : ℚ :=
  match price with
  | some p => if p ≤ 0 then MIN_ORDER_SHARES else jsMax MIN_ORDER_SHARES (MIN_ORDER_NOTIONAL_USD / p)
  | none => MIN_ORDER_SHARES

/-- `adjustSellAmountToAvoidDust(requestedAmount, availableAmount, price)` from
`src/app/api/trade/limit/route.js`: if either amount is non-finite, return the
requested amount unchanged; otherwise clamp the request to the available
balance and, when the leftover is strictly positive and `isBelowMin` the
minimum sellable share count at this price, return the entire available
balance instead. -/
def adjustSellAmountToAvoidDust (requestedAmount availableAmount price : JN) : JN :=
  match requestedAmount, availableAmount with
  | some requested, some available =>
    let next := jsMin requested available
    let remaining := available - next
    let minSellShares := minSellSharesAtPrice price
    some (if 0 < remaining ∧ isBelowMin (some remaining) (some minSellShares) = true
          then available else next)
  | _, _ => requestedAmount

/-- `sharesFromAmount(amount, price)` from `src/app/api/trade/limit/route.js`:
`null` when either input is non-finite or the price is non-positive, otherwise
`amount / price`. -/
def sharesFromAmount (amount price : JN) : JN :=
  match amount, price with
  | some a, some p => if p ≤ 0 then none else some (a / p)
  | _, _ => none

/-- `isOutOfTradablePriceRange(price)` from `src/app/api/trade/limit/route.js`:
`isBelowMin(p, MIN_TRADABLE_PRICE) || p > MAX_TRADABLE_PRICE + 1e-9`
(a non-finite price fails the first test, and the second comparison is false
for `NaN`). -/
def isOutOfTradablePriceRange (price : JN) : Bool :=
  isBelowMin price (some MIN_TRADABLE_PRICE) ||
    (match price with
     | some p => decide (MAX_TRADABLE_PRICE + numericEpsilon < p)
     | none => false)

/-! ## Trading module (`src/unnamed/part_000`): session manager -/

/-- The part of `TRADING_CONFIG` read by `getClobContext`: the `enabled` flag
and the private key (`none` models a missing or empty `POLY_PRIVATE_KEY`,
both falsy in the source). -/
structure TradingConfig where
  enabled : Bool
  privateKey : Option String
  deriving DecidableEq

/-- Credential set `{key, secret, passphrase}`. -/
structure ClobCreds where
  key : String
  secret : String
  passphrase : String
  deriving DecidableEq

/-- The `ClobContext` value built by `initClobContext`:
`{client, address, funderAddress, creds}`.  The client handle itself is not
modelled; every call through it is an oracle parameter. -/
structure ClobContext where
  address : String
  funderAddress : String
  creds : ClobCreds
  deriving DecidableEq

/-- The module-level mutable state of the session manager:
`clobContextPromise` (the memoized initialization, `none` = empty slot;
`some (Except.error e)` = a rejected in-flight promise observed by a caller
before the catch handler cleared it) and `warnedMissingKey`. -/
structure SessionState where
  clobContextPromise : Option (Except String ClobContext)
  warnedMissingKey : Bool

/-- `getClobContext()` from `src/unnamed/part_000`.  `initResult` is the
outcome of the `initClobContext()` attempt started when the memo slot is
empty (an oracle: it covers signer construction, the credential
create-or-derive with its derive fallback, and client construction).
Returns the result, the new module state, and whether this call emitted the
missing-key warning. -/
def getClobContext (cfg : TradingConfig) (initResult : Except String ClobContext)
    (s : SessionState) : Option ClobContext × SessionState × Bool :=
  if cfg.enabled = false then (none, s, false)
  else
    match cfg.privateKey with
    | none =>
      if s.warnedMissingKey then (none, s, false)
      else (none, { s with warnedMissingKey := true }, true)
    | some _ =>
      let s₁ : SessionState := { s with warnedMissingKey := false }
      let attempt := s₁.clobContextPromise.getD initResult
      match attempt with
      | Except.ok ctx => (some ctx, { s₁ with clobContextPromise := some (Except.ok ctx) }, false)
      | Except.error _ => (none, { s₁ with clobContextPromise := none }, false)

/-- One call of a sequence: the configuration it observes and the outcome of
the initialization attempt it would start on an empty memo slot. -/
structure SessionCall where
  cfg : TradingConfig
  initResult : Except String ClobContext

/-- Run a sequence of `getClobContext` calls from a starting state, recording
for each call whether it emitted the missing-key warning. -/
def runEmits : List SessionCall → SessionState → List Bool
  | [], _ => []
  | c :: rest, s =>
    let r := getClobContext c.cfg c.initResult s
    r.2.2 :: runEmits rest r.2.1

/-! ## Trading module: order submission -/

/-- `truncate(value, max = 500)` from `src/unnamed/part_000`:
`value.length > max ? value.slice(0, max) + "..." : value`. -/
def truncate (value : String) (maxLen : ℕ) : String :=
  if maxLen < value.length then String.mk (value.toList.take maxLen) ++ "..." else value

/-- The fields of an exchange response that `placeLimitOrder` /
`placeMarketOrder` read: the two aliases of the order identifier, and the
status.  `none` = the field is absent (`undefined`). -/
structure ExchangeResponse where
  orderID : Option String
  orderId : Option String
  status : Option String
  deriving DecidableEq

/-- `JSON.stringify(response ?? {})` as used for the missing-orderId
diagnostic.  Absent (`undefined`) fields are omitted, as `JSON.stringify`
does; the string values handled here need no JSON escaping. -/
def serializeResponse (resp : Option ExchangeResponse) : String :=
  match resp with
  | none => "\x7b\x7d"
  | some r =>
    let fields :=
      (match r.orderID with
       | some v => ["\"orderID\":\"" ++ v ++ "\""]
       | none => []) ++
      (match r.orderId with
       | some v => ["\"orderId\":\"" ++ v ++ "\""]
       | none => []) ++
      (match r.status with
       | some v => ["\"status\":\"" ++ v ++ "\""]
       | none => [])
    "\x7b" ++ String.intercalate "," fields ++ "\x7d"

/-- `response?.orderID ?? response?.orderId ?? ""`. -/
def extractOrderId (resp : Option ExchangeResponse) : String :=
  (((resp.bind fun r => r.orderID).or (resp.bind fun r => r.orderId)).getD "")

/-- `response?.status ?? ""`. -/
def extractStatus (resp : Option ExchangeResponse) : String :=
  (resp.bind fun r => r.status).getD ""

/-- The normalized submission result `{orderId, status, error?}`. -/
structure OrderResult where
  orderId : String
  status : String
  error : Option String
  deriving DecidableEq

/-- The metadata-resolution step shared by both submitters: use the
caller-supplied tick size and negRisk when both are present, otherwise the
outcome of `client.getTickSize` / `client.getNegRisk` (one oracle for the
pair; `Except.error m` = either call threw, with formatted message `m`). -/
def resolveMeta (tickSize : Option String) (negRisk : Option Bool)
    (metaR : Except String (String × Bool)) : Except String (String × Bool) :=
  match tickSize, negRisk with
  | some t, some n => Except.ok (t, n)
  | _, _ => metaR

/-- Options of `placeLimitOrder` (the fields the function reads). -/
structure LimitOpts where
  tokenId : String
  price : JN
  size : JN
  side : String
  orderType : Option String
  tickSize : Option String
  negRisk : Option Bool
  postOnly : Bool
  returnError : Bool
  deriving DecidableEq

/-- `placeLimitOrder(opts)` from `src/unnamed/part_000`.  `ctx` is the
session-manager outcome, `metaR` the metadata oracle, `postR` the outcome of
`client.createAndPostOrder` (`Except.ok none` = the call resolved with
`undefined`). -/
def placeLimitOrder (opts : LimitOpts) (ctx : Option ClobContext)
    (metaR : Except String (String × Bool))
    (postR : Except String (Option ExchangeResponse)) : Option OrderResult :=
  match ctx with
  | none =>
    if opts.returnError then some ⟨"", "", some "missing clob context"⟩ else none
  | some _ =>
    match resolveMeta opts.tickSize opts.negRisk metaR with
    | Except.error message =>
      if opts.returnError then some ⟨"", "", some ("metadata fetch failed: " ++ message)⟩
      else none
    | Except.ok _ =>
      match postR with
      | Except.error message =>
        if opts.returnError then some ⟨"", "", some message⟩ else none
      | Except.ok response =>
        let orderId := extractOrderId response
        let status := extractStatus response
        if orderId = "" then
          if opts.returnError then
            some ⟨"", status,
              some ("missing orderId in response: " ++ truncate (serializeResponse response) 500)⟩
          else none
        else some ⟨orderId, status, none⟩

/-- Options of `placeMarketOrder` (the fields the function reads). -/
structure MarketOpts where
  tokenId : String
  amount : JN
  side : String
  orderType : Option String
  price : JN
  tickSize : Option String
  negRisk : Option Bool
  returnError : Bool
  deriving DecidableEq

/-- `placeMarketOrder(opts)` from `src/unnamed/part_000`, with the same
oracle conventions as `placeLimitOrder`; `postR` is the outcome of
`client.createAndPostMarketOrder`. -/
def placeMarketOrder (opts : MarketOpts) (ctx : Option ClobContext)
    (metaR : Except String (String × Bool))
    (postR : Except String (Option ExchangeResponse)) : Option OrderResult :=
  match ctx with
  | none =>
    if opts.returnError then some ⟨"", "", some "missing clob context"⟩ else none
  | some _ =>
    match resolveMeta opts.tickSize opts.negRisk metaR with
    | Except.error message =>
      if opts.returnError then some ⟨"", "", some ("metadata fetch failed: " ++ message)⟩
      else none
    | Except.ok _ =>
      match postR with
      | Except.error message =>
        if opts.returnError then some ⟨"", "", some message⟩ else none
      | Except.ok response =>
        let orderId := extractOrderId response
        let status := extractStatus response
        if orderId = "" then
          if opts.returnError then
            some ⟨"", status,
              some ("missing orderId in response: " ++ truncate (serializeResponse response) 500)⟩
          else none
        else some ⟨orderId, status, none⟩

/-! ## Trading module: fill tracking -/

/-- A trade record as read by `computeFillFromTrades`: only `size` and
`price` are consumed, each through `Number(...)` with a `Number.isFinite`
guard, so `none` stands for an absent or non-finite field. -/
structure Trade where
  size : JN
  price : JN
  deriving DecidableEq

/-- An order snapshot as read by `fetchOrderFills`:
`associate_trades` (`none` = absent or not an array), `status`,
`size_matched` and `price` (each `none` = absent or non-finite, which the
code maps to the same fallbacks). -/
structure OrderSnapshot where
  associate_trades : Option (List String)
  status : Option String
  size_matched : JN
  price : JN
  deriving DecidableEq

/-- The aggregate returned by `computeFillFromTrades`. -/
structure FillAgg where
  filledSize : ℚ
  avgPrice : Option ℚ
  deriving DecidableEq

/-- `computeFillFromTrades(trades)` from `src/unnamed/part_000`: sum the
sizes and the size-weighted notional over the trades whose size and price
are both finite; `avgPrice = notional / filledSize` when `filledSize > 0`,
else `null`. -/
def computeFillFromTrades (trades : List Trade) : FillAgg :=
  let totals := trades.foldl (fun acc trade =>
    match trade.size, trade.price with
    | some size, some price => (acc.1 + size, acc.2 + size * price)
    | _, _ => acc) ((0 : ℚ), (0 : ℚ))
  ⟨totals.1, if 0 < totals.1 then some (totals.2 / totals.1) else none⟩

/-- The `(size, price)` pairs of the trades `computeFillFromTrades` includes
(both fields finite), in order.  Used to state its characterization. -/
def includedTrades (trades : List Trade) : List (ℚ × ℚ) :=
  trades.filterMap fun trade =>
    match trade.size, trade.price with
    | some size, some price => some (size, price)
    | _, _ => none

/-- The observations available to one iteration of the `fetchOrderFills`
polling loop: the outcome of `client.getOrder(orderId)` (`none` = the call
threw, or resolved without a usable order object) and, for each trade id,
the outcome of `client.getTrades({id})` (`none` = that call threw). -/
structure PollIter where
  getOrder : Option OrderSnapshot
  getTrades : String → Option (List Trade)

/-- `fetchTradesForOrder(ctx, order)` from `src/unnamed/part_000`: for each
associated trade id, fetch its trades; a failed or empty per-trade fetch is
skipped. -/
def fetchTradesForOrder (getTrades : String → Option (List Trade))
    (order : Option OrderSnapshot) : List Trade :=
  match order with
  | none => []
  | some o =>
    match o.associate_trades with
    | none => []
    | some tradeIds =>
      tradeIds.foldl (fun acc tradeId =>
        match getTrades tradeId with
        | some res => if res.isEmpty then acc else acc ++ res
        | none => acc) []

/-- The mid-loop `break` condition of `fetchOrderFills`:
`lastOrder && lastOrder.status && lastOrder.status !== "live" && !preferTrades`
(evaluated here for a non-null order). -/
def orderBreaks (o : OrderSnapshot) (preferTrades : Bool) : Bool :=
  (match o.status with
   | some s => decide (s ≠ "") && decide (s ≠ "live")
   | none => false) && !preferTrades

/-- A snapshot returned by `fetchOrderFills`.  The timeout-without-snapshot
return carries no `order` field (`none` here). -/
structure FillSnapshot where
  status : Option String
  filledSize : ℚ
  avgPrice : Option ℚ
  trades : List Trade
  order : Option OrderSnapshot
  deriving DecidableEq

/-- The code after the polling loop of `fetchOrderFills`: the
no-snapshot-ever `"unknown"` result, the trade-preferring aggregate, or the
fallback to the order's own `size_matched` / `price` fields. -/
def fetchOrderFillsFinish (preferTrades : Bool) (lastOrder : Option OrderSnapshot)
    (trades : List Trade) : FillSnapshot :=
  match lastOrder with
  | none => ⟨some "unknown", 0, none, [], none⟩
  | some o =>
    if preferTrades then
      let fills := computeFillFromTrades trades
      ⟨some (o.status.getD "unknown"), fills.filledSize, fills.avgPrice, trades, some o⟩
    else
      let sizeMatched := o.size_matched.getD 0
      let avgFallback := o.price.getD 0
      ⟨some (o.status.getD "unknown"), sizeMatched,
        if 0 < avgFallback then some avgFallback else none, trades, some o⟩

/-- The polling loop of `fetchOrderFills`, one recursive step per remaining
iteration: fetch the order; when it carries a non-empty associated-trades
list, fetch the trades and return the snapshot early if something filled or
the status left `"live"`; otherwise break (non-live truthy status without
trade preference) or sleep and retry.  When the early-return test fails the
status is exactly `"live"`, so the break test cannot fire on that path. -/
def fetchOrderFillsGo (preferTrades : Bool) :
    List PollIter → Option OrderSnapshot → List Trade → FillSnapshot
  | [], lastOrder, trades => fetchOrderFillsFinish preferTrades lastOrder trades
  | it :: rest, _, trades =>
    match it.getOrder with
    | some o =>
      if (o.associate_trades.getD []).isEmpty then
        if orderBreaks o preferTrades then fetchOrderFillsFinish preferTrades (some o) trades
        else fetchOrderFillsGo preferTrades rest (some o) trades
      else
        let tradesNew := fetchTradesForOrder it.getTrades (some o)
        let fills := computeFillFromTrades tradesNew
        if 0 < fills.filledSize ∨ o.status ≠ some "live" then
          ⟨o.status, fills.filledSize, fills.avgPrice, tradesNew, some o⟩
        else fetchOrderFillsGo preferTrades rest (some o) tradesNew
    | none => fetchOrderFillsGo preferTrades rest none trades

/-- `fetchOrderFills(orderId, {maxWaitMs, pollIntervalMs, preferTrades})`
from `src/unnamed/part_000`.  `ctx` is the session-manager outcome (`none`
short-circuits to `null`).  The `orderId` is absorbed into the per-iteration
oracles, and the `maxWaitMs` / `pollIntervalMs` wall-clock budget is absorbed
into the length of `trace` (how many loop iterations start before
`Date.now() - started` exceeds `maxWaitMs`). -/
def fetchOrderFills (ctx : Option ClobContext) (preferTrades : Bool)
    (trace : List PollIter) : Option FillSnapshot :=
  ctx.map fun _ => fetchOrderFillsGo preferTrades trace none []

/-! ## Route layer (`src/app/api/trade/utils.js` and
`src/app/api/trade/limit/route.js`) -/

/-- `parseString(value, label)` from `src/app/api/trade/utils.js`: a
non-string value yields `""`; a trimmed-empty string is an error.  `value`
is `none` when the body field is absent or not a string. -/
def parseString (value : Option String) (label : String) : Except String String :=
  let v := jsTrim (value.getD "")
  if v = "" then Except.error (label ++ " is required") else Except.ok v

/-- `parseNumber(value, label, {min, allowZero})` from
`src/app/api/trade/utils.js`: `Number(value)` must be finite and must be
`> min` (or `≥ min` when `allowZero`).  `value` is the numeric coercion of
the body field (`none` = absent or non-finite). -/
def parseNumber (value : JN) (label : String) (minValue : ℚ) (allowZero : Bool) :
    Except String ℚ :=
  match value with
  | none => Except.error (label ++ " must be a number")
  | some num =>
    if (if allowZero then decide (num < minValue) else decide (num ≤ minValue)) = true then
      Except.error (label ++ " must be > " ++ toString minValue)
    else Except.ok num

/-- `parseBool(value, label)` from `src/app/api/trade/utils.js`, applied to
an already-decoded candidate: `some b` when the field is a boolean or one of
the strings `"true"` / `"false"` (decoded to `b`), `none` otherwise. -/
def parseBool (value : Option Bool) (label : String) : Except String Bool :=
  match value with
  | some b => Except.ok b
  | none => Except.error (label ++ " must be true or false")

/-- `parseTickSize(value)` from `src/app/api/trade/utils.js` (the route only
calls it on a present, non-null value, here already stringified). -/
def parseTickSize (value : String) : Except String String :=
  let allowed := ["0.1", "0.01", "0.001", "0.0001"]
  let v := jsTrim value
  if v = "" then Except.error "tickSize is required"
  else if allowed.contains v then Except.ok v
  else Except.error ("tickSize must be one of " ++ String.intercalate ", " allowed)

/-- `parseSide(value)` from `src/app/api/trade/utils.js`: falsy values are
rejected, otherwise the uppercased value must be `BUY` or `SELL` (the
`Side` enum of the exchange SDK). -/
def parseSide (value : Option String) : Except String String :=
  match value with
  | none => Except.error "side is required"
  | some s =>
    if s = "" then Except.error "side is required"
    else
      let v := jsToUpper s
      if v = "BUY" ∨ v = "SELL" then Except.ok v
      else Except.error "side must be BUY or SELL"

/-- `parseOrderType(value, fallback)` from `src/app/api/trade/utils.js`:
falsy values yield the fallback, otherwise the uppercased value must be a
member of the SDK `OrderType` enum (modelled as GTC, FOK, GTD, FAK). -/
def parseOrderType (value : Option String) (fallback : Option String) :
    Except String (Option String) :=
  match value with
  | none => Except.ok fallback
  | some s =>
    if s = "" then Except.ok fallback
    else
      let v := jsToUpper s
      if ["GTC", "FOK", "GTD", "FAK"].contains v then Except.ok v
      else Except.error "orderType must be one of GTC, FOK, GTD, FAK"

/-- A balance record `{balance, allowance, available}` as returned by the
balance readers (`available` is already finite-clamped there). -/
structure Balance where
  balance : JN
  allowance : JN
  available : ℚ
  deriving DecidableEq

/-- The JSON body of a `POST /api/trade/limit` request, with each field
already decoded to the value the route reads from it: strings as
`Option String` (`none` = absent or not a string where the code
string-checks), numbers as `Option JN` (outer `none` = the field is absent
or `null`, inner `none` = its numeric coercion is non-finite), `negRisk` as
`Option (Option Bool)` (outer: present, inner: boolean-decodable), and the
`=== true` flags as `Bool`. -/
structure TradeBody where
  tokenId : Option String
  side : Option String
  price : JN
  market : Bool
  orderKind : Option String
  size : JN
  amount : JN
  orderType : Option String
  tickSize : Option String
  negRisk : Option (Option Bool)
  postOnly : Bool
  awaitFill : Bool
  maxWaitMs : Option JN
  pollIntervalMs : Option JN

/-- The validated order intent produced by the synchronous prefix of the
route handler (its lines up to the first network call). -/
structure ParsedOrder where
  tokenId : String
  side : String
  price : ℚ
  useMarket : Bool
  size : Option ℚ
  amount : Option ℚ
  orderType : Option String
  tickSize : Option String
  negRisk : Option Bool
  postOnly : Bool
  awaitFill : Bool
  maxWaitMs : Option ℚ
  pollIntervalMs : Option ℚ

/-- The success payload shapes of the route collapse into one record with
`none` for absent fields. -/
structure SuccessBody where
  orderId : String
  status : Option String
  filledSize : Option ℚ
  avgPrice : Option ℚ
  trades : Option (List Trade)
  requestedAmount : Option ℚ
  submittedAmount : Option ℚ
  requestedShares : Option ℚ
  submittedShares : Option ℚ
  available : Option ℚ
  availableAssetType : Option String
  deriving DecidableEq

/-- A route response: `jsonError(message, status)` or `jsonResponse(body)`.
The diagnostic `details` objects attached to some errors are not modelled. -/
inductive RouteResult where
  | errR (message : String) (status : ℕ)
  | okR (body : SuccessBody)
  deriving DecidableEq

/-- The intermediate `result` object of the route handler: either a preflight
failure built inside the market IIFE (numeric `status`), or a submission
outcome spread together with the sizing diagnostics. -/
structure SubmitResult where
  orderId : String
  status : String
  error : Option String
  errStatusNum : Option ℕ
  requestedAmount : JN
  submittedAmount : JN
  requestedShares : JN
  submittedShares : JN
  available : Option ℚ
  availableAssetType : Option String

/-- The network-facing collaborators of one route invocation, as oracles:
the session, the two balance reads, and per-submitter metadata/post
outcomes, plus the fill-polling trace. -/
structure NetOracle where
  ctx : Option ClobContext
  conditionalBalance : Option Balance
  collateralBalance : Option Balance
  limitMetaR : Except String (String × Bool)
  limitPostR : Except String (Option ExchangeResponse)
  marketMetaR : Except String (String × Bool)
  marketPostR : Except String (Option ExchangeResponse)
  fillTrace : List PollIter

/-- The market-order branch of the route handler (the async IIFE): balance
fetch, dust adjustment / clamping, preflight minimum checks, then
`placeMarketOrder` with `returnError: true` spread into the result. -/
def marketSubmit (p : ParsedOrder) (net : NetOracle) : SubmitResult :=
  let amount : JN := p.amount
  let place (submitAmount : JN) (available : Option ℚ) (assetType : Option String) :
      SubmitResult :=
    let placed := (placeMarketOrder
      ⟨p.tokenId, submitAmount, p.side, p.orderType, some p.price, p.tickSize, p.negRisk, true⟩
      net.ctx net.marketMetaR net.marketPostR).getD ⟨"", "", none⟩
    ⟨placed.orderId, placed.status, placed.error, none, amount, submitAmount, none, none,
      available, assetType⟩
  if p.side = "SELL" then
    match net.conditionalBalance with
    | none => ⟨"", "", some "failed to fetch conditional balance", some 502,
        none, none, none, none, none, none⟩
    | some conditional =>
      let available := conditional.available
      let submitAmount :=
        floorTo (adjustSellAmountToAvoidDust amount (some available) (some p.price)) 2
      match submitAmount with
      | none => ⟨"", "", some "not enough balance / allowance", some 409,
          amount, none, none, none, some available, some "CONDITIONAL"⟩
      | some sa =>
        if sa ≤ 0 then
          ⟨"", "", some "not enough balance / allowance", some 409,
            amount, some sa, none, none, some available, some "CONDITIONAL"⟩
        else if isBelowMin (some sa) (some MIN_ORDER_SHARES) then
          ⟨"", "", some "order size must be >= 5 shares", some 409,
            amount, some sa, none, none, some available, some "CONDITIONAL"⟩
        else if isBelowMin (some (sa * p.price)) (some MIN_ORDER_NOTIONAL_USD) then
          ⟨"", "", some "order notional must be >= $1", some 409,
            amount, some sa, none, none, some available, some "CONDITIONAL"⟩
        else place (some sa) (some available) (some "CONDITIONAL")
  else if p.side = "BUY" then
    match net.collateralBalance with
    | none => ⟨"", "", some "failed to fetch collateral balance", some 502,
        none, none, none, none, none, none⟩
    | some collateral =>
      let available := collateral.available
      let submitAmount := floorTo (amount.map fun a => jsMin a available) 2
      if isBelowMin submitAmount (some MIN_ORDER_NOTIONAL_USD) then
        ⟨"", "",
          some "invalid amount for a marketable BUY order (min size: $1) or insufficient collateral",
          some 409, amount, submitAmount, none, none, some available, some "COLLATERAL"⟩
      else
        let submitShares := submitAmount.map fun sa => sa / p.price
        if isBelowMin submitShares (some MIN_ORDER_SHARES) then
          ⟨"", "", some "order size must be >= 5 shares", some 409,
            amount, submitAmount, amount.map (fun a => a / p.price), submitShares,
            some available, some "COLLATERAL"⟩
        else place submitAmount (some available) (some "COLLATERAL")
  else place amount none none

/-- The synchronous prefix of the route handler `POST` in
`src/app/api/trade/limit/route.js` (its guard and body-validation lines, in
source order, up to but excluding the first network call): every failure is
the `jsonError` response the handler returns at that point. -/
def POSTValidate (cfg : TradingConfig) (bodyJ : Option TradeBody) :
    Except RouteResult ParsedOrder :=
  if cfg.enabled = false then
    Except.error (RouteResult.errR "Trading disabled (set TRADING_ENABLED=true)." 403)
  else if cfg.privateKey.isNone then
    Except.error (RouteResult.errR "POLY_PRIVATE_KEY is required for trading." 403)
  else
    match bodyJ with
    | none => Except.error (RouteResult.errR "Invalid JSON body" 400)
    | some body =>
      match parseString body.tokenId "tokenId" with
      | Except.error e => Except.error (RouteResult.errR e 400)
      | Except.ok tokenId =>
      match parseSide body.side with
      | Except.error e => Except.error (RouteResult.errR e 400)
      | Except.ok side =>
      match parseNumber body.price "price" 0 false with
      | Except.error e => Except.error (RouteResult.errR e 400)
      | Except.ok price =>
      let useMarket := body.market || decide (jsToLower (body.orderKind.getD "") = "market")
      if useMarket && isOutOfTradablePriceRange (some price) then
        Except.error (RouteResult.errR "price out of tradable range ($0.01-$0.99)" 409)
      else
      match (if useMarket then Except.ok none
             else (parseNumber body.size "size" 0 false).map some) with
      | Except.error e => Except.error (RouteResult.errR e 400)
      | Except.ok size =>
      match (if useMarket then (parseNumber body.amount "amount" 0 false).map some
             else Except.ok none) with
      | Except.error e => Except.error (RouteResult.errR e 400)
      | Except.ok amount =>
      match parseOrderType body.orderType none with
      | Except.error e => Except.error (RouteResult.errR e 400)
      | Except.ok orderType =>
      match (match body.tickSize with
             | none => Except.ok none
             | some raw => (parseTickSize raw).map some) with
      | Except.error e => Except.error (RouteResult.errR e 400)
      | Except.ok tickSize =>
      match (match body.negRisk with
             | none => Except.ok none
             | some raw => (parseBool raw "negRisk").map some) with
      | Except.error e => Except.error (RouteResult.errR e 400)
      | Except.ok negRisk =>
      match (match body.maxWaitMs with
             | none => Except.ok none
             | some raw => (parseNumber raw "maxWaitMs" 0 true).map some) with
      | Except.error e => Except.error (RouteResult.errR e 400)
      | Except.ok maxWaitMs =>
      match (match body.pollIntervalMs with
             | none => Except.ok none
             | some raw => (parseNumber raw "pollIntervalMs" 0 true).map some) with
      | Except.error e => Except.error (RouteResult.errR e 400)
      | Except.ok pollIntervalMs =>
      if useMarket = false ∧ isBelowMin size (some MIN_ORDER_SHARES) = true then
        Except.error (RouteResult.errR "order size must be >= 5 shares" 409)
      else if useMarket = false ∧
          isBelowMin (size.map fun s => s * price) (some MIN_ORDER_NOTIONAL_USD) = true then
        Except.error (RouteResult.errR "order notional must be >= $1" 409)
      else
        Except.ok ⟨tokenId, side, price, useMarket, size, amount, orderType, tickSize, negRisk,
          body.postOnly, body.awaitFill, maxWaitMs, pollIntervalMs⟩

/-- The submission half of the route handler: dispatch to the market IIFE or
`placeLimitOrder` (both with `returnError: true`), then map the result to the
response — `error` to `jsonError` with the preflight status (integer) or 502,
success to the immediate or fill-awaiting payload. -/
def POSTSubmit (p : ParsedOrder) (net : NetOracle) : RouteResult :=
  let result : Option SubmitResult :=
    if p.useMarket then some (marketSubmit p net)
    else (placeLimitOrder
        ⟨p.tokenId, some p.price, p.size, p.side, p.orderType, p.tickSize, p.negRisk,
          p.postOnly, true⟩
        net.ctx net.limitMetaR net.limitPostR).map
      fun r => ⟨r.orderId, r.status, r.error, none, none, none, none, none, none, none⟩
  match result with
  | none => RouteResult.errR "Order submission failed" 502
  | some r =>
    let requestedShares : JN :=
      match r.requestedShares with
      | some v => some v
      | none =>
        if p.side = "BUY" then sharesFromAmount r.requestedAmount (some p.price)
        else r.requestedAmount
    let submittedShares : JN :=
      match r.submittedShares with
      | some v => some v
      | none =>
        if p.side = "BUY" then sharesFromAmount r.submittedAmount (some p.price)
        else r.submittedAmount
    match r.error with
    | some e => RouteResult.errR e (r.errStatusNum.getD 502)
    | none =>
      if p.awaitFill = false then
        RouteResult.okR ⟨r.orderId, some r.status, none, none, none, r.requestedAmount,
          r.submittedAmount, requestedShares, submittedShares, r.available,
          r.availableAssetType⟩
      else
        match fetchOrderFills net.ctx p.useMarket net.fillTrace with
        | none =>
          RouteResult.okR ⟨r.orderId, some r.status, some 0, none, none, none, none, none,
            none, none, none⟩
        | some fills =>
          RouteResult.okR ⟨r.orderId, some (fills.status.getD r.status), some fills.filledSize,
            fills.avgPrice, some fills.trades, r.requestedAmount, r.submittedAmount,
            requestedShares, submittedShares, r.available, r.availableAssetType⟩

/-- The route handler `POST` of `src/app/api/trade/limit/route.js`:
validation prefix, then submission against the network oracles. -/
def POST (cfg : TradingConfig) (bodyJ : Option TradeBody) (net : NetOracle) : RouteResult :=
  match POSTValidate cfg bodyJ with
  | Except.error resp => resp
  | Except.ok parsed => POSTSubmit parsed net

/-! ## Shared bridging lemmas -/

theorem jsMin_eq (a b : ℚ) : jsMin a b = min a b := by
  rw [jsMin, min_def]

theorem jsMax_eq (a b : ℚ) : jsMax a b = max a b := by
  rw [jsMax, max_def]

theorem isBelowMin_some (a b : ℚ) :
    isBelowMin (some a) (some b) = true ↔ a + numericEpsilon < b := by
  simp [isBelowMin]

/-! ## C1 -/

/-- C1 counterexample: with `available = 10` and `price = 0.5` (so
`minSellSharesAtPrice = 5`), requesting `5 + 10⁻¹⁰` leaves a leftover of
`5 - 10⁻¹⁰`, which is strictly positive and smaller than `5`; the claim
demands that the whole balance (10) be sold, but the code keeps the clamped
amount because the leftover is within the `1e-9` epsilon of the minimum
(`isBelowMin` compares `remaining + 1e-9 < min`). -/
theorem C1_counterexample :
    (0 : ℚ) < 10 - 50000000001 / 10000000000 ∧
    (10 : ℚ) - 50000000001 / 10000000000 < minSellSharesAtPrice (some (1 / 2)) ∧
    adjustSellAmountToAvoidDust (some (50000000001 / 10000000000)) (some 10) (some (1 / 2)) =
      some (50000000001 / 10000000000) ∧
    (50000000001 / 10000000000 : ℚ) ≠ 10 := by
  refine ⟨by norm_num, ?_, ?_, by norm_num⟩
  · norm_num [minSellSharesAtPrice, jsMax, MIN_ORDER_SHARES, MIN_ORDER_NOTIONAL_USD]
  · norm_num [adjustSellAmountToAvoidDust, minSellSharesAtPrice, isBelowMin,
      numericEpsilon, jsMin, jsMax, MIN_ORDER_SHARES, MIN_ORDER_NOTIONAL_USD]

/-- C1 (amended): `adjustSellAmountToAvoidDust` clamps the request to the
available balance and sells the entire balance exactly when the leftover is
strictly positive and below `minSellSharesAtPrice(price)` by more than the
`1e-9` comparison epsilon (`leftover + 1e-9 < minSellShares`), keeping the
clamped amount otherwise; `minSellSharesAtPrice(price)` is
`max(5, 1/price)` for a finite positive price and `5` otherwise; and the
spec's two examples hold: `adjustSellAmountToAvoidDust(8, 10, 0.5) = 10`
and `adjustSellAmountToAvoidDust(4, 10, 0.5) = 4`. -/
theorem C1_adjust_amended :
    (∀ p : ℚ, 0 < p →
      minSellSharesAtPrice (some p) = max MIN_ORDER_SHARES (MIN_ORDER_NOTIONAL_USD / p)) ∧
    (∀ p : ℚ, p ≤ 0 → minSellSharesAtPrice (some p) = MIN_ORDER_SHARES) ∧
    minSellSharesAtPrice none = MIN_ORDER_SHARES ∧
    (∀ (requested available : ℚ) (price : JN),
      (0 < available - min requested available →
        available - min requested available + numericEpsilon < minSellSharesAtPrice price →
        adjustSellAmountToAvoidDust (some requested) (some available) price = some available) ∧
      (¬(0 < available - min requested available ∧
          available - min requested available + numericEpsilon < minSellSharesAtPrice price) →
        adjustSellAmountToAvoidDust (some requested) (some available) price =
          some (min requested available))) ∧
    adjustSellAmountToAvoidDust (some 8) (some 10) (some (1 / 2)) = some 10 ∧
    adjustSellAmountToAvoidDust (some 4) (some 10) (some (1 / 2)) = some 4 := by
  refine ⟨?_, ?_, ?_, ?_, ?_, ?_⟩
  · intro p hp
    rw [minSellSharesAtPrice, if_neg (by linarith), jsMax_eq]
  · intro p hp
    rw [minSellSharesAtPrice, if_pos hp]
  · rfl
  · intro requested available price
    constructor
    · intro h0 hlt
      rw [adjustSellAmountToAvoidDust, jsMin_eq,
        if_pos ⟨h0, (isBelowMin_some _ _).2 hlt⟩]
    · intro hn
      rw [adjustSellAmountToAvoidDust, jsMin_eq, if_neg]
      intro hc
      exact hn ⟨hc.1, (isBelowMin_some _ _).1 hc.2⟩
  · norm_num [adjustSellAmountToAvoidDust, minSellSharesAtPrice, isBelowMin,
      numericEpsilon, jsMin, jsMax, MIN_ORDER_SHARES, MIN_ORDER_NOTIONAL_USD]
  · norm_num [adjustSellAmountToAvoidDust, minSellSharesAtPrice, isBelowMin,
      numericEpsilon, jsMin, jsMax, MIN_ORDER_SHARES, MIN_ORDER_NOTIONAL_USD]

/-- C1 witness: the dust-adjustment branch of `C1_adjust_amended` applied at
the spec's first example. -/
theorem C1_adjust_amended_witness :
    adjustSellAmountToAvoidDust (some 8) (some 10) (some (1 / 2)) = some 10 := by
  have h := (C1_adjust_amended.2.2.2.1 8 10 (some (1 / 2))).1
  refine h (by norm_num) ?_
  norm_num [minSellSharesAtPrice, jsMax, numericEpsilon, MIN_ORDER_SHARES,
    MIN_ORDER_NOTIONAL_USD]

/-! ## C8 -/

/-- Modelled from the spec's words, for comparison with `floorTo`: flooring
*toward zero* (truncation) at the given decimal precision after adding the
`1e-9` epsilon. -/
def floorToSpecTruncate (v : ℚ) (decimals : ℕ) : ℚ :=
  let scaled := (v + numericEpsilon) * 10 ^ decimals
  (if 0 ≤ scaled then (⌊scaled⌋ : ℚ) else (⌈scaled⌉ : ℚ)) / 10 ^ decimals

/-- C8 counterexample: at `value = -1.005`, `decimals = 2`, the code
(`Math.floor`, toward negative infinity) yields `-1.01`, while flooring
toward zero as the claim states would yield `-1.00`. -/
theorem C8_counterexample :
    floorTo (some (-(201 / 200))) 2 = some (-(101 / 100)) ∧
    floorToSpecTruncate (-(201 / 200)) 2 = -1 ∧
    (-(101 / 100) : ℚ) ≠ -1 := by
  refine ⟨?_, ?_, by norm_num⟩
  · norm_num [floorTo, numericEpsilon, Rat.floor_def]
  · rw [floorToSpecTruncate]
    have hneg : ¬ (0 : ℚ) ≤ (-(201 / 200) + numericEpsilon) * 10 ^ 2 := by
      norm_num [numericEpsilon]
    rw [if_neg hneg]
    have hceil : ⌈((-(201 / 200) : ℚ) + numericEpsilon) * 10 ^ 2⌉ = -100 := by
      rw [Int.ceil_eq_iff]
      constructor <;> norm_num [numericEpsilon]
    rw [hceil]
    norm_num

/-- C8 (amended): `floorTo` floors toward **negative infinity**
(`Math.floor`) at the given decimal precision after adding the `1e-9`
epsilon (for non-negative values this coincides with flooring toward zero);
for precisions up to 8 decimals, a value equal to a decimal boundary or up
to `1e-9` below it is not floored below that boundary; and the spec's two
examples hold: `floorTo(1.0000000001, 2) = 1.00` and
`floorTo(1.229, 2) = 1.22`. -/
theorem C8_floorTo_amended :
    (∀ (v : ℚ) (d : ℕ),
      floorTo (some v) d = some (((⌊(v + numericEpsilon) * 10 ^ d⌋ : ℤ) : ℚ) / 10 ^ d)) ∧
    (∀ (k : ℤ) (d : ℕ) (delta : ℚ), d ≤ 8 → 0 ≤ delta → delta ≤ numericEpsilon →
      floorTo (some ((k : ℚ) / 10 ^ d - delta)) d = some ((k : ℚ) / 10 ^ d)) ∧
    floorTo (some (10000000001 / 10000000000)) 2 = some 1 ∧
    floorTo (some (1229 / 1000)) 2 = some (122 / 100) := by
  refine ⟨fun v d => rfl, ?_, ?_, ?_⟩
  · intro k d delta hd h0 hde
    have hpow : (0 : ℚ) < 10 ^ d := by positivity
    have harg : ((k : ℚ) / 10 ^ d - delta + numericEpsilon) * 10 ^ d =
        (k : ℚ) + (numericEpsilon - delta) * 10 ^ d := by
      field_simp
      ring
    have hlt : (numericEpsilon - delta) * 10 ^ d < 1 := by
      have h10 : (10 : ℚ) ^ d ≤ 10 ^ 8 := by
        exact pow_le_pow_right₀ (by norm_num) hd
      have h1 : (numericEpsilon - delta) * 10 ^ d ≤ numericEpsilon * 10 ^ 8 := by
        have := mul_le_mul (by linarith : numericEpsilon - delta ≤ numericEpsilon) h10
          (le_of_lt hpow) (by norm_num [numericEpsilon])
        exact this
      calc (numericEpsilon - delta) * 10 ^ d ≤ numericEpsilon * 10 ^ 8 := h1
        _ < 1 := by norm_num [numericEpsilon]
    have hge : 0 ≤ (numericEpsilon - delta) * 10 ^ d := by
      apply mul_nonneg (by linarith) (le_of_lt hpow)
    have hfloor : ⌊((k : ℚ) / 10 ^ d - delta + numericEpsilon) * 10 ^ d⌋ = k := by
      rw [harg, add_comm, Int.floor_add_int]
      rw [Int.floor_eq_zero_iff.2 ⟨hge, hlt⟩]
      ring
    simp only [floorTo, Option.map]
    rw [hfloor]
  · norm_num [floorTo, numericEpsilon, Rat.floor_def]
  · norm_num [floorTo, numericEpsilon, Rat.floor_def]

/-- C8 witness: the boundary-preservation part of `C8_floorTo_amended` at
`k = 100`, `d = 2`, `delta = 10⁻¹⁰`: a value `10⁻¹⁰` below `1.00` still
floors to `1.00`. -/
theorem C8_floorTo_amended_witness :
    floorTo (some ((100 : ℚ) / 10 ^ 2 - 1 / 10000000000)) 2 = some ((100 : ℚ) / 10 ^ 2) :=
  C8_floorTo_amended.2.1 100 2 (1 / 10000000000) (by norm_num) (by norm_num)
    (by norm_num [numericEpsilon])

/-! ## C7 -/

/-- The fold of `computeFillFromTrades` from any accumulator adds the sum of
the included sizes and the sum of the included size-weighted notionals. -/
theorem computeFill_foldl (trades : List Trade) (a b : ℚ) :
    trades.foldl (fun acc trade =>
      match trade.size, trade.price with
      | some size, some price => (acc.1 + size, acc.2 + size * price)
      | _, _ => acc) (a, b) =
    (a + ((includedTrades trades).map Prod.fst).sum,
     b + ((includedTrades trades).map fun q => q.1 * q.2).sum) := by
  induction trades generalizing a b with
  | nil => simp [includedTrades]
  | cons t ts ih =>
    match ht : t.size, hp : t.price with
    | some size, some price =>
      simp only [List.foldl_cons, includedTrades, List.filterMap_cons, ht, hp]
      rw [ih]
      simp only [includedTrades, List.map_cons, List.sum_cons]
      simp [add_assoc]
    | some _, none =>
      simp only [List.foldl_cons, includedTrades, List.filterMap_cons, ht, hp]
      rw [ih]
      simp [includedTrades]
    | none, _ =>
      simp only [List.foldl_cons, includedTrades, List.filterMap_cons, ht]
      rw [ih]
      simp [includedTrades]

/-- C7 counterexample: a single trade of size `-1` yields
`filledSize = -1 ≠ 0` with `avgPrice = null`, refuting both
"`avgPrice` is null iff `filledSize = 0`" and
"`avgPrice = Σ(size·price) / filledSize`" (which would be `0.5` here). -/
theorem C7_counterexample :
    (computeFillFromTrades [⟨some (-1), some (1 / 2)⟩]).avgPrice = none ∧
    (computeFillFromTrades [⟨some (-1), some (1 / 2)⟩]).filledSize ≠ 0 ∧
    (computeFillFromTrades [⟨some (-1), some (1 / 2)⟩]).avgPrice ≠
      some ((-1) * (1 / 2) / (-1)) := by
  refine ⟨by norm_num [computeFillFromTrades], by norm_num [computeFillFromTrades], ?_⟩
  norm_num [computeFillFromTrades]
  intro h
  exact Option.noConfusion h

/-- C7 (amended): `computeFillFromTrades` returns `filledSize` equal to the
sum of the included trades' sizes, `avgPrice = Σ(size·price) / filledSize`
when `filledSize > 0` and `null` otherwise (so for trades with non-negative
sizes, `avgPrice` is null iff `filledSize = 0`); on
`[{size: 2, price: 0.4}, {size: 3, price: 0.6}]` it returns
`filledSize = 5` and `avgPrice = 0.52`. -/
theorem C7_fill_aggregate :
    (∀ trades : List Trade,
      (computeFillFromTrades trades).filledSize =
        ((includedTrades trades).map Prod.fst).sum ∧
      (computeFillFromTrades trades).avgPrice =
        (if 0 < ((includedTrades trades).map Prod.fst).sum then
          some (((includedTrades trades).map fun q => q.1 * q.2).sum /
            ((includedTrades trades).map Prod.fst).sum)
         else none) ∧
      ((∀ q ∈ includedTrades trades, 0 ≤ q.1) →
        ((computeFillFromTrades trades).avgPrice = none ↔
          (computeFillFromTrades trades).filledSize = 0))) ∧
    computeFillFromTrades [⟨some 2, some (2 / 5)⟩, ⟨some 3, some (3 / 5)⟩] =
      ⟨5, some (13 / 25)⟩ := by
  constructor
  · intro trades
    have hsz : (computeFillFromTrades trades).filledSize =
        ((includedTrades trades).map Prod.fst).sum := by
      rw [computeFillFromTrades, computeFill_foldl]
      simp
    have hav : (computeFillFromTrades trades).avgPrice =
        (if 0 < ((includedTrades trades).map Prod.fst).sum then
          some (((includedTrades trades).map fun q => q.1 * q.2).sum /
            ((includedTrades trades).map Prod.fst).sum)
         else none) := by
      rw [computeFillFromTrades, computeFill_foldl]
      simp
    refine ⟨hsz, hav, ?_⟩
    intro hpos
    have hnn : 0 ≤ ((includedTrades trades).map Prod.fst).sum := by
      apply List.sum_nonneg
      intro x hx
      rcases List.mem_map.1 hx with ⟨q, hq, rfl⟩
      exact hpos q hq
    rw [hsz, hav]
    constructor
    · intro h
      by_contra hne
      have : 0 < ((includedTrades trades).map Prod.fst).sum :=
        lt_of_le_of_ne hnn (Ne.symm hne)
      rw [if_pos this] at h
      exact Option.some_ne_none _ h
    · intro h
      rw [if_neg]
      rw [h]
      exact lt_irrefl 0
  · norm_num [computeFillFromTrades]

/-- C7 witness: the non-negative-sizes branch of `C7_fill_aggregate` at the
spec's example list. -/
theorem C7_fill_aggregate_witness :
    (computeFillFromTrades [⟨some 2, some (2 / 5)⟩, ⟨some 3, some (3 / 5)⟩]).avgPrice = none ↔
    (computeFillFromTrades [⟨some 2, some (2 / 5)⟩, ⟨some 3, some (3 / 5)⟩]).filledSize = 0 := by
  refine (C7_fill_aggregate.1 [⟨some 2, some (2 / 5)⟩, ⟨some 3, some (3 / 5)⟩]).2.2 ?_
  intro q hq
  have hcases : q = (2, 2 / 5) ∨ q = (3, 3 / 5) := by
    simpa [includedTrades] using hq
  rcases hcases with rfl | rfl <;> norm_num

/-! ## C5 -/

/-- C5: `getClobContext` is modelled as a total function (it never
propagates an exception); whenever the awaited initialization attempt (the
memoized one if present, else the fresh one) fails, the call returns `null`,
and the memo slot is cleared back to empty (with the warning flag left
reset), so that a subsequent call runs a fresh initialization attempt and
succeeds if that attempt succeeds. -/
theorem C5_init_failure_recovery :
    ∀ (cfg : TradingConfig) (initResult : Except String ClobContext)
      (s : SessionState) (e : String),
      cfg.enabled = true → cfg.privateKey.isSome = true →
      s.clobContextPromise.getD initResult = Except.error e →
      getClobContext cfg initResult s = (none, ⟨none, false⟩, false) ∧
      (∀ ctx2 : ClobContext,
        (getClobContext cfg (Except.ok ctx2) ⟨none, false⟩).1 = some ctx2) := by
  intro cfg initResult s e hE hK hFail
  rcases Option.isSome_iff_exists.1 hK with ⟨k, hk⟩
  constructor
  · rw [getClobContext, if_neg (by rw [hE]; exact fun h => Bool.noConfusion h), hk]
    simp only
    rw [hFail]
  · intro ctx2
    rw [getClobContext, if_neg (by rw [hE]; exact fun h => Bool.noConfusion h), hk]
    simp

/-- C5 witness: `C5_init_failure_recovery` at an enabled configuration with
a key, an empty memo slot and a failing initialization attempt. -/
theorem C5_init_failure_recovery_witness :
    getClobContext ⟨true, some "pk"⟩ (Except.error "boom") ⟨none, false⟩ =
      (none, ⟨none, false⟩, false) ∧
    (getClobContext ⟨true, some "pk"⟩
      (Except.ok ⟨"addr", "funder", "k", "s", "p"⟩) ⟨none, false⟩).1 =
      some ⟨"addr", "funder", "k", "s", "p"⟩ := by
  have h := C5_init_failure_recovery ⟨true, some "pk"⟩ (Except.error "boom")
    ⟨none, false⟩ "boom" rfl rfl rfl
  exact ⟨h.1, h.2 ⟨"addr", "funder", "k", "s", "p"⟩⟩

/-! ## C9 -/

/-- From a state that has already warned, a run of enabled missing-key calls
emits no further warning. -/
theorem runEmits_after_warned :
    ∀ (calls : List SessionCall) (s : SessionState),
      s.warnedMissingKey = true →
      (∀ c ∈ calls, c.cfg.enabled = true ∧ c.cfg.privateKey = none) →
      runEmits calls s = List.replicate calls.length false := by
  intro calls
  induction calls with
  | nil => intro s _ _; rfl
  | cons c rest ih =>
    intro s hW hall
    have hc := hall c (List.mem_cons_self c rest)
    rw [runEmits, getClobContext, if_neg (by rw [hc.1]; exact fun h => Bool.noConfusion h),
      hc.2]
    simp only [hW, if_pos]
    rw [List.length_cons, List.replicate_succ]
    exact congrArg (List.cons false) (ih s hW fun d hd => hall d (List.mem_cons_of_mem c hd))

/-- C9: while trading is enabled with no key configured, each call returns
`null`, emits the warning exactly when the flag is not yet set, and leaves
the flag set; a call that observes a configured key (with trading enabled)
re-arms the warning by resetting the flag; and any non-empty run of
enabled missing-key calls starting from an un-warned state emits the
warning exactly once. -/
theorem C9_missing_key_warning :
    (∀ (cfg : TradingConfig) (initResult : Except String ClobContext) (s : SessionState),
      cfg.enabled = true → cfg.privateKey = none →
      (getClobContext cfg initResult s).1 = none ∧
      (getClobContext cfg initResult s).2.2 = !s.warnedMissingKey ∧
      (getClobContext cfg initResult s).2.1.warnedMissingKey = true) ∧
    (∀ (cfg : TradingConfig) (initResult : Except String ClobContext) (s : SessionState),
      cfg.enabled = true → cfg.privateKey.isSome = true →
      (getClobContext cfg initResult s).2.1.warnedMissingKey = false) ∧
    (∀ (calls : List SessionCall) (s : SessionState),
      s.warnedMissingKey = false → calls ≠ [] →
      (∀ c ∈ calls, c.cfg.enabled = true ∧ c.cfg.privateKey = none) →
      (runEmits calls s).count true = 1) := by
  refine ⟨?_, ?_, ?_⟩
  · intro cfg initResult s hE hN
    rw [getClobContext, if_neg (by rw [hE]; exact fun h => Bool.noConfusion h), hN]
    cases hW : s.warnedMissingKey <;> simp [hW]
  · intro cfg initResult s hE hK
    rcases Option.isSome_iff_exists.1 hK with ⟨k, hk⟩
    rw [getClobContext, if_neg (by rw [hE]; exact fun h => Bool.noConfusion h), hk]
    simp only
    cases h : SessionState.clobContextPromise { s with warnedMissingKey := false } |>.getD
        initResult <;> simp [h]
  · intro calls s hW hne hall
    match calls with
    | [] => exact absurd rfl hne
    | c :: rest =>
      have hc := hall c (List.mem_cons_self c rest)
      have hstep : getClobContext c.cfg c.initResult s =
          (none, { s with warnedMissingKey := true }, true) := by
        rw [getClobContext, if_neg (by rw [hc.1]; exact fun h => Bool.noConfusion h), hc.2,
          if_neg (by simp [hW])]
      rw [runEmits, hstep]
      simp only
      rw [runEmits_after_warned rest { s with warnedMissingKey := true } rfl
        (fun d hd => hall d (List.mem_cons_of_mem c hd))]
      simp [List.count_replicate]

/-- C9 witness: `C9_missing_key_warning` applied to a one-call episode from
the un-warned initial state. -/
theorem C9_missing_key_warning_witness :
    (runEmits [⟨⟨true, none⟩, Except.error "x"⟩] ⟨none, false⟩).count true = 1 :=
  C9_missing_key_warning.2.2 [⟨⟨true, none⟩, Except.error "x"⟩] ⟨none, false⟩ rfl
    (List.cons_ne_nil _ _)
    (by
      intro c hc
      rw [List.mem_singleton] at hc
      subst hc
      exact ⟨rfl, rfl⟩)

/-! ## C10 -/

/-- C10: when no session can be obtained (`getClobContext` yielded `null` —
trading disabled, key missing, or initialization failed), `fetchOrderFills`
returns `null` rather than a `FillSnapshot`, for every option set and
without consuming any polling iteration (the result is independent of the
entire trace). -/
theorem C10_no_session_returns_null :
    ∀ (preferTrades : Bool) (trace : List PollIter),
      fetchOrderFills none preferTrades trace = none := by
  intro preferTrades trace
  rfl

/-! ## C3 -/

/-- C3: if every polling iteration fails to obtain an order snapshot and the
loop exhausts its time budget, `fetchOrderFills` returns exactly
`{status: "unknown", filledSize: 0, avgPrice: null, trades: []}` (and no
`order` field). -/
theorem C3_timeout_without_snapshot :
    ∀ (ctx : ClobContext) (preferTrades : Bool) (trace : List PollIter),
      (∀ it ∈ trace, it.getOrder = none) →
      fetchOrderFills (some ctx) preferTrades trace =
        some ⟨some "unknown", 0, none, [], none⟩ := by
  intro ctx preferTrades trace hall
  have hgo : ∀ (l : List PollIter), (∀ it ∈ l, it.getOrder = none) →
      fetchOrderFillsGo preferTrades l none [] = ⟨some "unknown", 0, none, [], none⟩ := by
    intro l
    induction l with
    | nil => intro _; rfl
    | cons it rest ih =>
      intro h
      rw [fetchOrderFillsGo, h it (List.mem_cons_self it rest)]
      exact ih fun d hd => h d (List.mem_cons_of_mem it hd)
  rw [fetchOrderFills, Option.map]
  rw [hgo trace hall]

/-- C3 witness: `C3_timeout_without_snapshot` on a single-iteration trace
whose order fetch failed. -/
theorem C3_timeout_without_snapshot_witness :
    fetchOrderFills (some ⟨"addr", "funder", "k", "s", "p"⟩) false
      [⟨none, fun _ => none⟩] = some ⟨some "unknown", 0, none, [], none⟩ :=
  C3_timeout_without_snapshot ⟨"addr", "funder", "k", "s", "p"⟩ false
    [⟨none, fun _ => none⟩]
    (by
      intro it hit
      rw [List.mem_singleton] at hit
      subst hit
      rfl)

/-! ## C4 -/

/-- C4 counterexample: with `preferTrades = true`, an iteration that fetches
an order with a non-live status (`"canceled"`) but an *empty*
associated-trades list does **not** return a snapshot from that iteration:
the loop keeps polling (here: one more failing iteration, then the timeout
record), so the result is the `"unknown"` timeout record and not the claimed
immediate snapshot of the first iteration. -/
theorem C4_counterexample :
    fetchOrderFills (some ⟨"addr", "funder", "k", "s", "p"⟩) true
      [⟨some ⟨some [], some "canceled", none, none⟩, fun _ => none⟩,
       ⟨none, fun _ => none⟩] =
      some ⟨some "unknown", 0, none, [], none⟩ ∧
    (some "canceled" : Option String) ≠ some "live" ∧
    (⟨some "unknown", 0, none, [], none⟩ : FillSnapshot) ≠
      ⟨some "canceled", 0, none, [],
        some ⟨some [], some "canceled", none, none⟩⟩ := by
  refine ⟨?_, by simp, by simp⟩
  rfl

/-- C4 (amended): in every iteration whose fetched order carries a
*non-empty* associated-trades list, if the aggregate filled size computed
from the fetched trades is strictly positive or the order's status is no
longer `"live"`, the snapshot `{status, filledSize, avgPrice, trades,
order}` is returned immediately from that iteration, regardless of the
remaining time budget. -/
theorem C4_early_return_amended :
    ∀ (ctx : ClobContext) (preferTrades : Bool) (it : PollIter)
      (rest : List PollIter) (o : OrderSnapshot),
      it.getOrder = some o →
      (o.associate_trades.getD []).isEmpty = false →
      (0 < (computeFillFromTrades (fetchTradesForOrder it.getTrades (some o))).filledSize ∨
        o.status ≠ some "live") →
      fetchOrderFills (some ctx) preferTrades (it :: rest) =
        some ⟨o.status,
          (computeFillFromTrades (fetchTradesForOrder it.getTrades (some o))).filledSize,
          (computeFillFromTrades (fetchTradesForOrder it.getTrades (some o))).avgPrice,
          fetchTradesForOrder it.getTrades (some o), some o⟩ := by
  intro ctx preferTrades it rest o hO hNE hcond
  rw [fetchOrderFills, Option.map, fetchOrderFillsGo, hO]
  simp only [hNE, Bool.false_eq_true, if_false]
  rw [if_pos hcond]

/-- C4 witness: `C4_early_return_amended` on an iteration whose order has
one associated trade id resolving to a single trade of size 2 at price 0.5,
with status `"matched"`. -/
theorem C4_early_return_amended_witness :
    fetchOrderFills (some ⟨"addr", "funder", "k", "s", "p"⟩) true
      [⟨some ⟨some ["t1"], some "matched", none, none⟩,
        fun _ => some [⟨some 2, some (1 / 2)⟩]⟩] =
      some ⟨some "matched", 2, some (1 / 2), [⟨some 2, some (1 / 2)⟩],
        some ⟨some ["t1"], some "matched", none, none⟩⟩ := by
  have h := C4_early_return_amended ⟨"addr", "funder", "k", "s", "p"⟩ true
    ⟨some ⟨some ["t1"], some "matched", none, none⟩, fun _ => some [⟨some 2, some (1 / 2)⟩]⟩
    [] ⟨some ["t1"], some "matched", none, none⟩ rfl rfl
    (Or.inr (by simp))
  rw [h]
  norm_num [fetchTradesForOrder, computeFillFromTrades]

/-! ## C2 -/

/-- `truncate · 500` is bounded: at most the first 500 characters of the
serialized response plus the 3-character ellipsis marker. -/
theorem truncate_length_le (s : String) : (truncate s 500).length ≤ 503 := by
  rw [truncate]
  split
  · rw [String.length_append]
    have h1 : (String.mk (s.toList.take 500)).length = (s.toList.take 500).length := rfl
    have h2 : (s.toList.take 500).length ≤ 500 := List.length_take_le 500 s.toList
    have h3 : ("..." : String).length = 3 := rfl
    omega
  · next h =>
    have : s.length ≤ 500 := Nat.le_of_not_lt h
    omega

/-- C2: whenever either submitter reaches the exchange call (session present
and metadata resolved) and the call resolves without raising but the
response carries no order identifier under either alias field, the
submission is reported as a failure: with `returnError`, a structured error
whose detail embeds the serialized response truncated at 500 characters;
without it, `null`.  It is never reported as a success. -/
theorem C2_missing_orderId_failure :
    ∀ (lopts : LimitOpts) (mopts : MarketOpts) (ctx : ClobContext)
      (lmeta mmeta : Except String (String × Bool)) (lm mm : String × Bool)
      (resp respM : Option ExchangeResponse),
      resolveMeta lopts.tickSize lopts.negRisk lmeta = Except.ok lm →
      resolveMeta mopts.tickSize mopts.negRisk mmeta = Except.ok mm →
      (resp.bind fun r => r.orderID) = none → (resp.bind fun r => r.orderId) = none →
      (respM.bind fun r => r.orderID) = none → (respM.bind fun r => r.orderId) = none →
      placeLimitOrder lopts (some ctx) lmeta (Except.ok resp) =
        (if lopts.returnError then
          some ⟨"", extractStatus resp,
            some ("missing orderId in response: " ++ truncate (serializeResponse resp) 500)⟩
        else none) ∧
      placeMarketOrder mopts (some ctx) mmeta (Except.ok respM) =
        (if mopts.returnError then
          some ⟨"", extractStatus respM,
            some ("missing orderId in response: " ++ truncate (serializeResponse respM) 500)⟩
        else none) ∧
      (truncate (serializeResponse resp) 500).length ≤ 503 := by
  intro lopts mopts ctx lmeta mmeta lm mm resp respM hLmeta hMmeta hL1 hL2 hM1 hM2
  have hLid : extractOrderId resp = "" := by
    rw [extractOrderId, hL1, hL2]
    rfl
  have hMid : extractOrderId respM = "" := by
    rw [extractOrderId, hM1, hM2]
    rfl
  refine ⟨?_, ?_, truncate_length_le _⟩
  · rw [placeLimitOrder, hLmeta]
    simp [hLid]
  · rw [placeMarketOrder, hMmeta]
    simp [hMid]

/-- C2 witness: `C2_missing_orderId_failure` at concrete options (metadata
overrides supplied, `returnError: true`) and a concrete order-id-less
response carrying only a status, for both submitters. -/
theorem C2_missing_orderId_failure_witness :
    placeLimitOrder ⟨"tok", some (1 / 2), some 5, "BUY", none, some "0.01", some false, false,
        true⟩
      (some ⟨"addr", "funder", "k", "s", "p"⟩) (Except.ok ("0.01", false))
      (Except.ok (some ⟨none, none, some "live"⟩)) =
      some ⟨"", "live",
        some "missing orderId in response: \x7b\"status\":\"live\"\x7d"⟩ ∧
    placeMarketOrder ⟨"tok", some 10, "SELL", none, some (1 / 2), some "0.01", some false,
        true⟩
      (some ⟨"addr", "funder", "k", "s", "p"⟩) (Except.ok ("0.01", false))
      (Except.ok none) =
      some ⟨"", "", some "missing orderId in response: \x7b\x7d"⟩ := by
  have h := C2_missing_orderId_failure
    ⟨"tok", some (1 / 2), some 5, "BUY", none, some "0.01", some false, false, true⟩
    ⟨"tok", some 10, "SELL", none, some (1 / 2), some "0.01", some false, true⟩
    ⟨"addr", "funder", "k", "s", "p"⟩
    (Except.ok ("0.01", false)) (Except.ok ("0.01", false)) ("0.01", false) ("0.01", false)
    (some ⟨none, none, some "live"⟩) none rfl rfl rfl rfl rfl rfl
  refine ⟨?_, ?_⟩
  · rw [h.1]
    rfl
  · rw [h.2.1]
    rfl

/-! ## C6 -/

/-- C6: the tradable price-band check fails exactly when the price is below
`0.01` by more than the `1e-9` epsilon or above `0.99` by more than the
`1e-9` epsilon; `0.005` and `0.995` are out of range and `0.5` is in range;
and for a market order whose token, side and price parse, an out-of-range
price makes the route return the 409 validation error — for *every* network
oracle, i.e. before any network call. -/
theorem C6_market_price_band :
    (∀ p : ℚ, isOutOfTradablePriceRange (some p) = true ↔
      (p + numericEpsilon < MIN_TRADABLE_PRICE ∨ MAX_TRADABLE_PRICE + numericEpsilon < p)) ∧
    isOutOfTradablePriceRange (some (1 / 200)) = true ∧
    isOutOfTradablePriceRange (some (1 / 2)) = false ∧
    isOutOfTradablePriceRange (some (199 / 200)) = true ∧
    (∀ (cfg : TradingConfig) (body : TradeBody) (net : NetOracle) (p : ℚ),
      cfg.enabled = true → cfg.privateKey.isSome = true →
      (∃ t, parseString body.tokenId "tokenId" = Except.ok t) →
      (∃ sd, parseSide body.side = Except.ok sd) →
      parseNumber body.price "price" 0 false = Except.ok p →
      (body.market || decide (jsToLower (body.orderKind.getD "") = "market")) = true →
      isOutOfTradablePriceRange (some p) = true →
      POST cfg (some body) net =
        RouteResult.errR "price out of tradable range ($0.01-$0.99)" 409) := by
  refine ⟨?_, ?_, ?_, ?_, ?_⟩
  · intro p
    simp [isOutOfTradablePriceRange, isBelowMin]
  · norm_num [isOutOfTradablePriceRange, isBelowMin, numericEpsilon,
      MIN_TRADABLE_PRICE, MAX_TRADABLE_PRICE]
  · norm_num [isOutOfTradablePriceRange, isBelowMin, numericEpsilon,
      MIN_TRADABLE_PRICE, MAX_TRADABLE_PRICE]
  · norm_num [isOutOfTradablePriceRange, isBelowMin, numericEpsilon,
      MIN_TRADABLE_PRICE, MAX_TRADABLE_PRICE]
  · intro cfg body net p hE hK hTex hSex hP hM hOut
    rcases hTex with ⟨t, hT⟩
    rcases hSex with ⟨sd, hS⟩
    rcases Option.isSome_iff_exists.1 hK with ⟨k, hk⟩
    rw [POST]
    have hVal : POSTValidate cfg (some body) =
        Except.error (RouteResult.errR "price out of tradable range ($0.01-$0.99)" 409) := by
      rw [POSTValidate, if_neg (by simp [hE]), if_neg (by simp [hk])]
      simp only [hT, hS, hP]
      rw [if_pos (by rw [hM, hOut]; rfl)]
    rw [hVal]

/-- C6 witness: `C6_market_price_band` applied to a concrete market BUY
request at price `0.005` with an arbitrary oracle — the route rejects with
the 409 band error. -/
theorem C6_market_price_band_witness :
    POST ⟨true, some "pk"⟩
      (some ⟨some "tok", some "BUY", some (1 / 200), true, none, none, some 1, none, none,
        none, false, false, none, none⟩)
      ⟨none, none, none, Except.error "e", Except.error "e", Except.error "e",
        Except.error "e", []⟩ =
      RouteResult.errR "price out of tradable range ($0.01-$0.99)" 409 := by
  exact C6_market_price_band.2.2.2.2 ⟨true, some "pk"⟩
    ⟨some "tok", some "BUY", some (1 / 200), true, none, none, some 1, none, none,
      none, false, false, none, none⟩
    ⟨none, none, none, Except.error "e", Except.error "e", Except.error "e",
      Except.error "e", []⟩ (1 / 200) rfl rfl ⟨"tok", rfl⟩ ⟨"BUY", rfl⟩
    (by norm_num [parseNumber]) rfl
    (by norm_num [isOutOfTradablePriceRange, isBelowMin, numericEpsilon,
      MIN_TRADABLE_PRICE, MAX_TRADABLE_PRICE])
